import Mathlib

/-!
Verification of `cmd/server.go` of the aginx repository: the server command's
startup helpers — environment/flag resolution (`getString`), storage-backend
selection from a cluster connection string (`clusterConfiguration`), the API
exposure probe (`selectDirective`), the generated API server block
(`apiServer`), self-exposure (`exposeApi`), and Service registration of the
storage engine.

Modelling conventions:
- Go strings are Lean `String`s; Go's byte slicing `s[1:]` is modelled at the
  character level (all characters involved here are single-byte ASCII).
- A Go `panic` (from `PanicIfError` or a runtime fault such as an
  out-of-bounds slice or indexing an empty slice) is modelled as `none` in an
  `Option` result; a Go `nil` interface value is an inner `none`.
- Collaborator packages of the repository that are not part of the source
  under verification (the config client's query engine, the storage backends)
  are modelled from the specification, as marked on each such definition.
-/

/-- Directive is one node of the nginx configuration tree: a name, ordered
arguments, and an ordered body of child directives
(`nginx/configuration` package). -/
inductive Directive where
  | mk (name : String) (args : List String) (body : List Directive)

/-- Name of a directive node. -/
def Directive.name : Directive → String
  | .mk n _ _ => n

/-- Arguments of a directive node. -/
def Directive.args : Directive → List String
  | .mk _ a _ => a

/-- Body (children) of a directive node. -/
def Directive.body : Directive → List Directive
  | .mk _ _ b => b

/-- NewDirective creates a directive with the given name and arguments and an
empty body, as `configuration.NewDirective` does. -/
def NewDirective (name : String) (args : List String) : Directive :=
  .mk name args []

/-- AddBody appends a new leaf child with the given name and arguments, as
`Directive.AddBody` does. Go's `AddBody` returns the appended child so that it
can be mutated in place; here the caller instead builds the child fully and
attaches it with `addChild`. -/
def Directive.addBody (d : Directive) (name : String) (args : List String) : Directive :=
  .mk d.name d.args (d.body ++ [.mk name args []])

/-- addChild appends an already-built child directive to a node's body. -/
def Directive.addChild (d : Directive) (child : Directive) : Directive :=
  .mk d.name d.args (d.body ++ [child])

/-- apiServer builds the server block that exposes the restful API on port 80
for the given domain, exactly as `apiServer` in `cmd/server.go`: an address
beginning with a colon is prefixed with `127.0.0.1`, and the location block
starts with `proxy_redirect default` followed by the proxy pass, the three
forwarded headers, body/buffer sizes, the three timeouts and the proxy
buffers. -/
def apiServer (domain address : String) : Directive :=
  let directive := ((NewDirective "server" []).addBody "listen" ["80"]).addBody "server_name" [domain]
  let address2 := if address.startsWith ":" then "127.0.0.1" ++ address else address
  let location :=
    ((((((((((((NewDirective "location" ["/"]).addBody
      "proxy_redirect" ["default"]).addBody
      "proxy_pass" ["http://" ++ address2]).addBody
      "proxy_set_header" ["Host", "$host"]).addBody
      "proxy_set_header" ["X-Real-IP", "$remote_addr"]).addBody
      "proxy_set_header" ["X-Forwarded-For", "$proxy_add_x_forwarded_for"]).addBody
      "client_max_body_size" ["10m"]).addBody
      "client_body_buffer_size" ["128k"]).addBody
      "proxy_connect_timeout" ["90"]).addBody
      "proxy_send_timeout" ["90"]).addBody
      "proxy_read_timeout" ["90"]).addBody
      "proxy_buffers" ["32", "4k"])
  directive.addChild location

/-- apiServerSpec is the API-exposure skeleton exactly as the specification
words it: a server block with `listen 80` and `server_name <domain>`
containing a `location /` that proxies to the given address and sets the
`Host`, `X-Real-IP` and `X-Forwarded-For` headers, with
`client_max_body_size 10m`, `client_body_buffer_size 128k`, the three proxy
timeouts at `90`, and `proxy_buffers 32 4k`. It mentions no
`proxy_redirect` directive and no rewriting of the address. -/
def apiServerSpec (domain address : String) : Directive :=
  .mk "server" []
    [ .mk "listen" ["80"] [],
      .mk "server_name" [domain] [],
      .mk "location" ["/"]
        [ .mk "proxy_pass" ["http://" ++ address] [],
          .mk "proxy_set_header" ["Host", "$host"] [],
          .mk "proxy_set_header" ["X-Real-IP", "$remote_addr"] [],
          .mk "proxy_set_header" ["X-Forwarded-For", "$proxy_add_x_forwarded_for"] [],
          .mk "client_max_body_size" ["10m"] [],
          .mk "client_body_buffer_size" ["128k"] [],
          .mk "proxy_connect_timeout" ["90"] [],
          .mk "proxy_send_timeout" ["90"] [],
          .mk "proxy_read_timeout" ["90"] [],
          .mk "proxy_buffers" ["32", "4k"] [] ] ]

/-- normalizeAddress is the address rewriting performed by `apiServer`: an
address beginning with `:` (a bare port) is prefixed with `127.0.0.1`. -/
def normalizeAddress (address : String) : String :=
  if address.startsWith ":" then "127.0.0.1" ++ address else address

/-- apiServerAmended is the specification skeleton amended to match the code:
the location block additionally starts with `proxy_redirect default`, and the
proxied address is normalized with `normalizeAddress` first. -/
def apiServerAmended (domain address : String) : Directive :=
  .mk "server" []
    [ .mk "listen" ["80"] [],
      .mk "server_name" [domain] [],
      .mk "location" ["/"]
        [ .mk "proxy_redirect" ["default"] [],
          .mk "proxy_pass" ["http://" ++ normalizeAddress address] [],
          .mk "proxy_set_header" ["Host", "$host"] [],
          .mk "proxy_set_header" ["X-Real-IP", "$remote_addr"] [],
          .mk "proxy_set_header" ["X-Forwarded-For", "$proxy_add_x_forwarded_for"] [],
          .mk "client_max_body_size" ["10m"] [],
          .mk "client_body_buffer_size" ["128k"] [],
          .mk "proxy_connect_timeout" ["90"] [],
          .mk "proxy_send_timeout" ["90"] [],
          .mk "proxy_read_timeout" ["90"] [],
          .mk "proxy_buffers" ["32", "4k"] [] ] ]

/-- Pred is one predicate of a selector query: a function-call test
`fn(arg1, ...)` against a candidate directive. -/
structure QPred where
  fn : String
  args : List String

/-- PExpr is a predicate expression: predicates combined with conjunction and
disjunction. -/
inductive PExpr where
  | pred : QPred → PExpr
  | band : PExpr → PExpr → PExpr
  | bor : PExpr → PExpr → PExpr

/-- Step is one step of a selector query: a directive name (`none` is the
wildcard `*`) with an optional predicate expression. -/
structure Step where
  pat : Option String
  expr : Option PExpr

/-- Modelled from the spec: a predicate `fn(args)` holds of a candidate
directive when an immediate child call named `fn` has exactly the given
literal arguments (the query engine of `nginx/client` is not part of the
source under verification). -/
def predHolds (d : Directive) (p : QPred) : Bool :=
  d.body.any fun c => c.name == p.fn && c.args == p.args

/-- Modelled from the spec: evaluation of a predicate expression, conjunction
binding tighter than disjunction. -/
def evalPExpr (d : Directive) : PExpr → Bool
  | .pred p => predHolds d p
  | .band a b => evalPExpr d a && evalPExpr d b
  | .bor a b => evalPExpr d a || evalPExpr d b

/-- Modelled from the spec: a query step matches a directive when its name
pattern (wildcard or equal name) and its optional predicate expression do. -/
def stepMatches (s : Step) (d : Directive) : Bool :=
  (match s.pat with
   | none => true
   | some n => d.name == n) &&
  (match s.expr with
   | none => true
   | some e => evalPExpr d e)

/-- Modelled from the spec: one breadth-first filter level of query
evaluation — the matching direct children of all current candidates, in
document order. -/
def evalStep (cands : List Directive) (s : Step) : List Directive :=
  cands.flatMap fun c => c.body.filter (stepMatches s)

/-- Modelled from the spec: evaluating a query (a sequence of steps) against
a tree, starting from the root as sole candidate. -/
def select (root : Directive) (q : List Step) : List Directive :=
  q.foldl evalStep [root]

/-- Modelled from the spec: `Select` of the config client returns the ordered
matches of the query and reports NotFound (modelled as `Except.error ()`)
when there are none. -/
def selectE (root : Directive) (q : List Step) : Except Unit (List Directive) :=
  match select root q with
  | [] => .error ()
  | d :: ds => .ok (d :: ds)

/-- serverStep is the final step of both exposure probes in `selectDirective`:
a `server` block satisfying `server_name(domain) & listen(80)`. -/
def serverStep (domain : String) : Step :=
  ⟨some "server", some (.band (.pred ⟨"server_name", [domain]⟩) (.pred ⟨"listen", ["80"]⟩))⟩

/-- q1 is the first probe of `selectDirective`, built by
`client.Queries("http", "include", "*", serverQuery)`: the exposed server
block inside an included file. -/
def q1 (domain : String) : List Step :=
  [⟨some "http", none⟩, ⟨some "include", none⟩, ⟨none, none⟩, serverStep domain]

/-- q2 is the second probe of `selectDirective`, built by
`client.Queries("http", serverQuery)`: the exposed server block directly
under `http`. -/
def q2 (domain : String) : List Step :=
  [⟨some "http", none⟩, serverStep domain]

/-- selectDirective mirrors `selectDirective` in `cmd/server.go`: try the
include-shaped probe, and on a Select error try the direct probe; on a
successful Select take `directives[0]`. The outer `Option` models a Go
panic (indexing an empty result), the inner `Option` the possibly-nil
returned directive. -/
def selectDirective (root : Directive) (domain : String) : Option (Option Directive) :=
  match selectE root (q1 domain) with
  | .ok ds =>
    match ds[0]? with
    | some d => some (some d)
    | none => none
  | .error _ =>
    match selectE root (q2 domain) with
    | .ok ds =>
      match ds[0]? with
      | some d => some (some d)
      | none => none
    | .error _ => some none

/-- addToFirst appends a child to the first directive of the list whose name
matches, returning `none` when no name matches. -/
def addToFirst (nm : String) (child : Directive) : List Directive → Option (List Directive)
  | [] => none
  | c :: cs =>
    if c.name == nm then some (.mk c.name c.args (c.body ++ [child]) :: cs)
    else (addToFirst nm child cs).map (c :: ·)

/-- Modelled from the spec: `Add` of the config client resolves its
single-step target query against the root's children (first match wins) and
appends the new directive under it, reporting NotFound (`none`) when the
query has no match. Specialized to the one-step query used by `exposeApi`. -/
def addUnder (root : Directive) (nm : String) (child : Directive) : Option Directive :=
  (addToFirst nm child root.body).map fun b => .mk root.name root.args b

/-- exposeApi mirrors `exposeApi` in `cmd/server.go` as a transformer of the
stored configuration tree: an empty expose domain is a no-op; when the probe
finds an exposed server block nothing changes; otherwise the generated
`apiServer` block is added under `http` and the configuration is stored.
`none` models a panic (`PanicIfError` on a failed Add, or a fault inside
`selectDirective`). -/
def exposeApi (domain address : String) (root : Directive) : Option Directive :=
  if domain = "" then some root
  else
    match selectDirective root domain with
    | none => none
    | some (some _) => some root
    | some none =>
      match addUnder root "http" (apiServer domain address) with
      | none => none
      | some root2 => some root2

/-- Engine is the storage engine value selected by `clusterConfiguration`:
the local file backend (`fileStorage.System`) or the consul backend
(`consul.New(address, folder, token)`). -/
inductive Engine where
  | file : Engine
  | consul (host folder token : String) : Engine

/-- URL is the result of Go's `url.Parse` restricted to the components
`clusterConfiguration` reads: `Scheme`, `Host` (including the port),
`EscapedPath`, and the decoded query parameters. -/
structure URL where
  scheme : String
  host : String
  escapedPath : String
  query : List (String × String)

/-- queryGet models `url.Values.Get`: the value of the first parameter with
the given key, or the empty string. -/
def URL.queryGet (u : URL) (key : String) : String :=
  match u.query.find? (fun p => p.1 == key) with
  | some p => p.2
  | none => ""

/-- goSliceFrom models Go's string slicing `s[i:]`: defined exactly when
`i ≤ len(s)`, a panic (`none`) otherwise. -/
def goSliceFrom (s : String) (i : Nat) : Option String :=
  if i ≤ s.length then some ⟨s.data.drop i⟩ else none

/-- clusterConfiguration mirrors `clusterConfiguration` in `cmd/server.go`,
taking the connection string together with its `url.Parse` result (the parse
is only consulted when the string is non-empty). The outer `Option` models a
panic, the inner `Option` the returned engine interface value, `none` being
Go's nil interface: an empty string selects the file backend, a `consul`
scheme builds the consul backend from host, path without its first character,
and the `token` query parameter — and any other scheme falls through the
switch, leaving the engine nil. -/
def clusterConfiguration (cluster : String) (config : URL) : Option (Option Engine) :=
  if cluster = "" then some (some .file)
  else
    if config.scheme = "consul" then
      let token := config.queryGet "token"
      match goSliceFrom config.escapedPath 1 with
      | none => none
      | some folder => some (some (.consul config.host folder token))
    else some none

/-- goToUpper models Go's `strings.ToUpper` for the ASCII strings used here:
uppercase every character. -/
def goToUpper (s : String) : String :=
  ⟨s.data.map Char.toUpper⟩

/-- getString mirrors `getString` in `cmd/server.go`: the environment
variable `AGINX_<KEY>` (the whole name uppercased) wins when set non-empty,
otherwise the command-line flag's value is used; a missing flag is a panic
(`none`, via `PanicIfError`). The environment and the flag set are passed as
functions. -/
def getString (env : String → String) (flags : String → Option String) (key : String) :
    Option String :=
  let envKey := goToUpper ("aginx_" ++ key)
  if env envKey = "" then flags key else some (env envKey)

/-- Modelled from the spec: which storage engines implement the Service
capability — clustered key-value backends (consul) do, the purely local file
backend does not. -/
def implementsService : Engine → Bool
  | .file => false
  | .consul _ _ _ => true

/-- daemonServices mirrors the registration step of `ServerCmd`: the engine
(possibly nil) is added to the daemon's service set exactly when the type
assertion `engine.(Service)` succeeds, which the capability model above
decides; a nil engine never satisfies a type assertion. -/
def daemonServices (engine : Option Engine) : List Engine :=
  match engine with
  | some e => if implementsService e then [e] else []
  | none => []

mutual

/-- anyMatch decides whether some node of the tree (the root included)
satisfies the given test. -/
def anyMatch (p : Directive → Bool) : Directive → Bool
  | .mk n a body => p (.mk n a body) || anyMatchList p body

/-- anyMatchList decides `anyMatch` over a forest. -/
def anyMatchList (p : Directive → Bool) : List Directive → Bool
  | [] => false
  | c :: cs => anyMatch p c || anyMatchList p cs

end

/-- existsMatchingServer is the wording of the idempotence claim: somewhere
in the tree there is a `server` block satisfying both `server_name(domain)`
and `listen(80)`. -/
def existsMatchingServer (root : Directive) (domain : String) : Bool :=
  anyMatch
    (fun d => d.name == "server" &&
      predHolds d ⟨"server_name", [domain]⟩ && predHolds d ⟨"listen", ["80"]⟩)
    root

/-- zkURL is Go's `url.Parse` result on `zk://127.0.0.1:2182/aginx`, the
zookeeper example printed by the `--cluster` flag's own help text. -/
def zkURL : URL :=
  ⟨"zk", "127.0.0.1:2182", "/aginx", []⟩

/-- slashAginxURL is Go's `url.Parse` result on the non-empty, scheme-less
connection string `/aginx`: a bare path. -/
def slashAginxURL : URL :=
  ⟨"", "", "/aginx", []⟩

/-- consulURL is Go's `url.Parse` result on
`consul://127.0.0.1:8500/aginx?token=tk`. -/
def consulURL : URL :=
  ⟨"consul", "127.0.0.1:8500", "/aginx", [("token", "tk")]⟩

/-- consulNoPathURL is Go's `url.Parse` result on `consul://127.0.0.1:8500`,
whose path component is empty. -/
def consulNoPathURL : URL :=
  ⟨"consul", "127.0.0.1:8500", "", []⟩

/-- srvA is a server block exposing domain `a.com` on port 80. -/
def srvA : Directive :=
  .mk "server" [] [.mk "server_name" ["a.com"] [], .mk "listen" ["80"] []]

/-- includeTree is a configuration tree holding `srvA` inside an included
file under `http`, the shape probed by `q1`. -/
def includeTree : Directive :=
  .mk "root" [] [.mk "http" [] [.mk "include" ["conf.d"] [.mk "conf" [] [srvA]]]]

/-- strayTree is a configuration tree holding a matching server block at the
top level, outside `http`, next to an empty `http` block: neither probe of
`selectDirective` can see it. -/
def strayTree : Directive :=
  .mk "root" [] [srvA, .mk "http" [] []]

/-- strayTreeAfter is `strayTree` after `exposeApi` has added the generated
API server block under `http`. -/
def strayTreeAfter : Directive :=
  .mk "root" [] [srvA, .mk "http" [] [apiServer "a.com" ":8011"]]

/-- envSample is a concrete environment holding only `AGINX_API=:9000`. -/
def envSample : String → String :=
  fun s => if s = "AGINX_API" then ":9000" else ""

/-- flagsSample is a concrete flag set where every flag reads `:8011`. -/
def flagsSample : String → Option String :=
  fun _ => some ":8011"

/-! Helper lemmas shared by the claim theorems. -/

/-- An element of a candidate's body that matches the step is among the
step's results. -/
theorem mem_evalStep {cands : List Directive} {s : Step} {c x : Directive}
    (hc : c ∈ cands) (hx : x ∈ c.body) (hm : stepMatches s x = true) :
    x ∈ evalStep cands s :=
  List.mem_flatMap.mpr ⟨c, hc, List.mem_filter.mpr ⟨hx, hm⟩⟩

/-- A step with a name pattern and no predicate matches any directive of that
name. -/
theorem stepMatches_name_only {n : String} {d : Directive} (h : d.name = n) :
    stepMatches ⟨some n, none⟩ d = true := by
  simp [stepMatches, h]

/-- The generated API server block satisfies the exposure probe's final step
for its own domain. -/
theorem stepMatches_serverStep_apiServer (domain address : String) :
    stepMatches (serverStep domain) (apiServer domain address) = true := by
  simp [stepMatches, serverStep, evalPExpr, predHolds, apiServer, NewDirective,
    Directive.addBody, Directive.addChild, Directive.name, Directive.args, Directive.body]

/-- A successful `addToFirst` leaves a directive of the requested name holding
the new child. -/
theorem addToFirst_mem {nm : String} {child : Directive} {l l2 : List Directive}
    (h : addToFirst nm child l = some l2) :
    ∃ c2, c2 ∈ l2 ∧ c2.name = nm ∧ child ∈ c2.body := by
  induction l generalizing l2 with
  | nil => simp [addToFirst] at h
  | cons c cs ih =>
    rw [addToFirst] at h
    by_cases hn : (c.name == nm) = true
    · rw [if_pos hn] at h
      cases h
      refine ⟨.mk c.name c.args (c.body ++ [child]), List.mem_cons_self _ _, eq_of_beq hn, ?_⟩
      simp [Directive.body]
    · rw [if_neg hn] at h
      rcases Option.map_eq_some'.mp h with ⟨l2x, hx, hcons⟩
      obtain ⟨c2, hmem, hname, hchild⟩ := ih hx
      exact ⟨c2, hcons ▸ List.mem_cons_of_mem _ hmem, hname, hchild⟩

/-- When the second probe has matches, `selectDirective` returns a directive
(whichever probe's first match applies). -/
theorem selectDirective_some_of_q2 {root : Directive} {domain : String}
    (h : select root (q2 domain) ≠ []) :
    ∃ d, selectDirective root domain = some (some d) := by
  cases h1 : select root (q1 domain) with
  | cons d t => exact ⟨d, by simp [selectDirective, selectE, h1]⟩
  | nil =>
    cases h2 : select root (q2 domain) with
    | nil => exact absurd h2 h
    | cons d t => exact ⟨d, by simp [selectDirective, selectE, h1, h2]⟩

/-- A successful `addUnder root "http"` makes the directly-present probe `q2`
find the added API server block. -/
theorem apiServer_mem_select_q2 {root root2 : Directive} {domain address : String}
    (h : addUnder root "http" (apiServer domain address) = some root2) :
    apiServer domain address ∈ select root2 (q2 domain) := by
  unfold addUnder at h
  rcases Option.map_eq_some'.mp h with ⟨b, hb, hroot2⟩
  obtain ⟨c2, hmem, hname, hchild⟩ := addToFirst_mem hb
  have hc2 : c2 ∈ evalStep [root2] ⟨some "http", none⟩ := by
    refine mem_evalStep (List.mem_singleton_self root2) ?_ (stepMatches_name_only hname)
    rw [← hroot2]
    simpa [Directive.body] using hmem
  have hmem2 : apiServer domain address ∈
      evalStep (evalStep [root2] ⟨some "http", none⟩) (serverStep domain) :=
    mem_evalStep hc2 hchild (stepMatches_serverStep_apiServer domain address)
  simpa [select, q2] using hmem2

/-! Claim theorems. -/

/-- C1. The claim says an unrecognized storage scheme is a fatal startup
error inside `clusterConfiguration`. The code has no default case in its
scheme switch: for the zookeeper connection string printed by the command's
own `--cluster` help text, `clusterConfiguration` completes without any
error and returns a nil engine, the exact outcome the claim rules out. -/
theorem clusterConfiguration_zk_nil_engine :
    clusterConfiguration "zk://127.0.0.1:2182/aginx" zkURL = some none := rfl

/-- C2 counterexample. The directive built by `apiServer` is not the
specification's skeleton: at domain `example.com` and address `:8011` the
two trees differ (the code's location block opens with an extra
`proxy_redirect default`, and the bare-port address is rewritten). -/
theorem apiServer_ne_spec_skeleton :
    apiServer "example.com" ":8011" ≠ apiServerSpec "example.com" ":8011" := by
  intro h
  have h2 := congrArg (fun t => t.body.map fun c => c.body.length) h
  exact absurd h2 (by decide)

/-- C2 amended. For every domain and address, `apiServer` returns exactly the
specification skeleton amended in two points: the location block starts with
an additional `proxy_redirect default` directive, and the proxied address is
first normalized (a bare `:port` address gets `127.0.0.1` prepended). -/
theorem apiServer_eq_amended (domain address : String) :
    apiServer domain address = apiServerAmended domain address := rfl

/-- C3. `selectDirective` implements fallback semantics: when the
include-shaped probe `q1` has a first match, that match is returned; only
when `q1` has no match is the direct probe `q2` tried, its first match
returned; when neither has a match the returned directive is nil. -/
theorem selectDirective_fallback (root : Directive) (domain : String) :
    (∀ d ds, select root (q1 domain) = d :: ds →
      selectDirective root domain = some (some d)) ∧
    (select root (q1 domain) = [] → ∀ d ds, select root (q2 domain) = d :: ds →
      selectDirective root domain = some (some d)) ∧
    (select root (q1 domain) = [] → select root (q2 domain) = [] →
      selectDirective root domain = some none) := by
  refine ⟨fun d ds h1 => ?_, fun h1 d ds h2 => ?_, fun h1 h2 => ?_⟩
  · simp [selectDirective, selectE, h1]
  · simp [selectDirective, selectE, h1, h2]
  · simp [selectDirective, selectE, h1, h2]

/-- C3 witness: on a tree holding the exposed server block inside an included
file, the include-shaped probe finds it. -/
theorem selectDirective_fallback_witness :
    selectDirective includeTree "a.com" = some (some srvA) :=
  (selectDirective_fallback includeTree "a.com").1 srvA [] rfl

/-- C5. The `directives[0]` access in `selectDirective` never faults: an
error-free `Select` returns at least one match, so for every tree and domain
the function returns without a panic (the panic is the outer `none`). -/
theorem selectDirective_index_never_fails (root : Directive) (domain : String) :
    selectDirective root domain ≠ none := by
  cases h1 : select root (q1 domain) with
  | cons d t => simp [selectDirective, selectE, h1]
  | nil =>
    cases h2 : select root (q2 domain) with
    | cons d t => simp [selectDirective, selectE, h1, h2]
    | nil => simp [selectDirective, selectE, h1, h2]

/-- C4 counterexample. The non-empty connection string `/aginx` parses with
an empty scheme, yet `clusterConfiguration` does not select the file backend:
it falls through the scheme switch and returns a nil engine. -/
theorem emptyScheme_nonempty_cluster_not_file :
    clusterConfiguration "/aginx" slashAginxURL = some none ∧
    clusterConfiguration "/aginx" slashAginxURL ≠ some (some Engine.file) := by
  refine ⟨rfl, ?_⟩
  intro h
  rw [show clusterConfiguration "/aginx" slashAginxURL = some none from rfl] at h
  simp at h

/-- C4 amended. Only the empty connection string selects the local file
backend; a non-empty connection string whose parse has an empty scheme is
not recognized and yields a nil engine instead. -/
theorem clusterConfiguration_empty_string_file (cluster : String) (config : URL) :
    (cluster = "" → clusterConfiguration cluster config = some (some Engine.file)) ∧
    (cluster ≠ "" → config.scheme = "" →
      clusterConfiguration cluster config = some none) := by
  constructor
  · intro h
    simp [clusterConfiguration, h]
  · intro h hs
    simp [clusterConfiguration, h, hs]

/-- C4 amended witness: the empty string gives the file backend, while the
non-empty scheme-less string `/aginx` gives a nil engine. -/
theorem clusterConfiguration_empty_string_file_witness :
    clusterConfiguration "" consulURL = some (some Engine.file) ∧
    clusterConfiguration "/aginx" slashAginxURL = some none :=
  ⟨(clusterConfiguration_empty_string_file "" consulURL).1 rfl,
   (clusterConfiguration_empty_string_file "/aginx" slashAginxURL).2 (by decide) rfl⟩

/-- Dropping the first character of a string that starts with a slash
removes exactly that slash. -/
theorem goSliceFrom_slash (rest : String) :
    goSliceFrom ("/" ++ rest) 1 = some rest := by
  have hdata : ("/" ++ rest).data = '/' :: rest.data := by
    rw [String.data_append]
    rfl
  have hlen : 1 ≤ ("/" ++ rest).length := by
    show 1 ≤ ("/" ++ rest).data.length
    rw [hdata]
    simp
  unfold goSliceFrom
  rw [if_pos hlen, hdata]
  rfl

/-- C6. For every non-empty consul-scheme connection string,
`clusterConfiguration` builds the consul backend from exactly the parsed
components: the host (with port) as the address, the escaped path minus its
leading slash as the folder, and the `token` query parameter as the
credential. -/
theorem clusterConfiguration_consul_components (cluster : String) (config : URL)
    (rest : String) (hc : cluster ≠ "") (hs : config.scheme = "consul")
    (hp : config.escapedPath = "/" ++ rest) :
    clusterConfiguration cluster config =
      some (some (Engine.consul config.host rest (config.queryGet "token"))) := by
  simp [clusterConfiguration, hc, hs, hp, goSliceFrom_slash]

/-- C6 witness at the parse of `consul://127.0.0.1:8500/aginx?token=tk`. -/
theorem clusterConfiguration_consul_components_witness :
    clusterConfiguration "consul://127.0.0.1:8500/aginx?token=tk" consulURL =
      some (some (Engine.consul "127.0.0.1:8500" "aginx" "tk")) :=
  clusterConfiguration_consul_components _ consulURL "aginx" (by decide) rfl (by decide)

/-- A string whose character list is empty is the empty string. -/
theorem string_eq_empty_of_data_nil {s : String} (h : s.data = []) : s = "" := by
  obtain ⟨l⟩ := s
  simp at h
  subst h
  rfl

/-- C8. For a non-empty consul-scheme connection string the slice
`config.EscapedPath()[1:]` is out of bounds exactly when the path component
is empty: an empty path makes `clusterConfiguration` panic, while any
non-empty path yields the consul engine with the path's tail as folder. -/
theorem consul_empty_path_slice_bounds (cluster : String) (config : URL)
    (hc : cluster ≠ "") (hs : config.scheme = "consul") :
    (config.escapedPath = "" → clusterConfiguration cluster config = none) ∧
    (config.escapedPath ≠ "" → ∃ folder,
      clusterConfiguration cluster config =
        some (some (Engine.consul config.host folder (config.queryGet "token")))) := by
  constructor
  · intro hp
    simp [clusterConfiguration, hc, hs, hp, goSliceFrom]
  · intro hp
    have hdata : config.escapedPath.data ≠ [] := by
      intro hnil
      exact hp (string_eq_empty_of_data_nil hnil)
    have hlen : 1 ≤ config.escapedPath.length := by
      show 1 ≤ config.escapedPath.data.length
      cases hd : config.escapedPath.data with
      | nil => exact absurd hd hdata
      | cons a l => simp
    refine ⟨⟨config.escapedPath.data.drop 1⟩, ?_⟩
    simp [clusterConfiguration, hc, hs, goSliceFrom, hlen]

/-- C8 witness: the pathless parse of `consul://127.0.0.1:8500` makes
`clusterConfiguration` panic on the slice. -/
theorem consul_empty_path_slice_bounds_witness :
    clusterConfiguration "consul://127.0.0.1:8500" consulNoPathURL = none :=
  (consul_empty_path_slice_bounds "consul://127.0.0.1:8500" consulNoPathURL
    (by decide) rfl).1 rfl

/-- Uppercasing distributes over the `aginx_` prefix: the environment key
consulted by `getString` is `AGINX_` followed by the uppercased key. -/
theorem goToUpper_append_aginx (key : String) :
    goToUpper ("aginx_" ++ key) = "AGINX_" ++ goToUpper key := by
  obtain ⟨l⟩ := key
  show String.mk (("aginx_" ++ String.mk l).data.map Char.toUpper) =
    "AGINX_" ++ String.mk (l.map Char.toUpper)
  rw [String.data_append]
  show String.mk (("aginx_".data ++ l).map Char.toUpper) =
    String.mk ("AGINX_".data ++ l.map Char.toUpper)
  rw [List.map_append]
  rfl

/-- C9. For every environment, flag set and key, `getString` returns the
value of the environment variable `AGINX_<KEY>` (the key uppercased)
whenever that variable is non-empty, and only otherwise falls back to the
command-line flag: the environment always overrides the flag. -/
theorem getString_env_overrides (env : String → String) (flags : String → Option String)
    (key : String) :
    (env ("AGINX_" ++ goToUpper key) ≠ "" →
      getString env flags key = some (env ("AGINX_" ++ goToUpper key))) ∧
    (env ("AGINX_" ++ goToUpper key) = "" →
      getString env flags key = flags key) := by
  unfold getString
  rw [goToUpper_append_aginx]
  constructor
  · intro h
    rw [if_neg h]
  · intro h
    rw [if_pos h]

/-- C9 witness: with `AGINX_API=:9000` in the environment and `:8011` as the
flag value, `getString` returns the environment value. -/
theorem getString_env_overrides_witness :
    getString envSample flagsSample "api" = some ":9000" := by
  have h := (getString_env_overrides envSample flagsSample "api").1 (by decide)
  rw [h]
  rfl

/-- C7. The capability dispatch of `ServerCmd` registers the selected engine
in the daemon's service set exactly when it implements the Service
capability: never for the file backend (or a nil engine), always for the
consul backend. -/
theorem engine_service_registration :
    (∀ e : Engine, daemonServices (some e) ≠ [] ↔ implementsService e = true) ∧
    daemonServices (some Engine.file) = [] ∧
    (∀ host folder token, daemonServices (some (Engine.consul host folder token)) =
      [Engine.consul host folder token]) ∧
    daemonServices none = [] := by
  refine ⟨fun e => ?_, rfl, fun host folder token => rfl, rfl⟩
  cases e <;> simp [daemonServices, implementsService]

/-- C10 counterexample. `strayTree` holds a server block matching
`server_name(a.com) & listen(80)`, but outside the two shapes the probe
inspects: `exposeApi` is not a no-op on it — it adds a second, duplicate
server block under `http` and persists. -/
theorem exposeApi_adds_despite_existing_server :
    existsMatchingServer strayTree "a.com" = true ∧
    exposeApi "a.com" ":8011" strayTree ≠ some strayTree := by
  refine ⟨by decide, ?_⟩
  intro h
  rw [show exposeApi "a.com" ":8011" strayTree = some strayTreeAfter from rfl] at h
  have h2 := Option.some.inj h
  have h3 := congrArg (fun t => t.body.map fun c => c.body.length) h2
  exact absurd h3 (by decide)

/-- C10 amended. `exposeApi` is a no-op when the expose domain is empty or
when the probe `selectDirective` finds an exposed server block in one of its
two shapes (inside an include under `http`, or directly under `http`); it
mutates and persists only otherwise; and it is idempotent: a second run on
the result of any successful run changes nothing. -/
theorem exposeApi_noop_and_idempotent (domain address : String) (root : Directive) :
    (domain = "" → exposeApi domain address root = some root) ∧
    (∀ d, selectDirective root domain = some (some d) →
      exposeApi domain address root = some root) ∧
    (∀ root2, exposeApi domain address root = some root2 →
      exposeApi domain address root2 = some root2) := by
  refine ⟨fun hd => ?_, fun d hsel => ?_, fun root2 h => ?_⟩
  · rw [exposeApi, if_pos hd]
  · by_cases hd : domain = ""
    · rw [exposeApi, if_pos hd]
    · rw [exposeApi, if_neg hd, hsel]
  · by_cases hd : domain = ""
    · rw [exposeApi, if_pos hd] at h
      cases h
      rw [exposeApi, if_pos hd]
    · rw [exposeApi, if_neg hd] at h
      cases hsel : selectDirective root domain with
      | none => rw [hsel] at h; cases h
      | some od =>
        cases od with
        | some d =>
          rw [hsel] at h
          cases h
          rw [exposeApi, if_neg hd, hsel]
        | none =>
          rw [hsel] at h
          cases hadd : addUnder root "http" (apiServer domain address) with
          | none => rw [hadd] at h; cases h
          | some r2 =>
            rw [hadd] at h
            cases h
            have hmem := apiServer_mem_select_q2 hadd
            obtain ⟨d2, hsd⟩ := selectDirective_some_of_q2 (List.ne_nil_of_mem hmem)
            rw [exposeApi, if_neg hd, hsd]

/-- C10 amended witness: running `exposeApi` again on the tree produced by a
successful first run changes nothing. -/
theorem exposeApi_noop_and_idempotent_witness :
    exposeApi "a.com" ":8011" strayTreeAfter = some strayTreeAfter :=
  (exposeApi_noop_and_idempotent "a.com" ":8011" strayTree).2.2 strayTreeAfter rfl
